import Mathlib

/-!
Shallow embedding of the FlowBlock core: the blocking decision engine
(`src/background/index.ts` together with the storage helpers it inlines) and the
session/timer state machine with its Pomodoro controller (`src/utils/timer.ts`).

Conventions of the embedding:
* JS `number` timestamps and counters become `Int` (millisecond wall-clock times).
* `Date.now()` and freshly generated ids are passed in as explicit arguments
  (`now`, `newId`), making every operation a pure function of its inputs.
* The persisted `chrome.storage.local` record becomes the structure `St`;
  every operation reads the state, computes, and returns the written-back state.
* Fallible operations (the TypeScript functions that `throw`) return
  `Except String St` carrying the thrown message; an error means no write happened
  (in the source every `throw` precedes the first storage write).
* `new Date(t).toDateString()` equality is modelled by equality of day indices
  `t / 86400000` (mathematical floor): two timestamps compare equal exactly when
  they fall on the same calendar day, with the timezone abstracted to UTC.
-/

namespace FlowBlock

/-- Result of JavaScript `Math.round(x / den)` for an integer number of
milliseconds `x` and a positive divisor `den`: `Math.round` is
floor-of-plus-one-half, so the value is `⌊(2*x + den) / (2*den)⌋`. -/
def jsRoundDiv (x den : Int) : Int :=
  Int.fdiv (2 * x + den) (2 * den)

/-- Calendar-day index of a millisecond timestamp; equality of these indices
models equality of `new Date(t).toDateString()` strings. -/
def toDateString (t : Int) : Int :=
  Int.fdiv t 86400000

/-- JavaScript `s.toLowerCase()` (ASCII-faithful). -/
def jsToLower (s : String) : String :=
  ⟨s.data.map Char.toLower⟩

/-- Check that the first character list starts the second one (structural
recursion, so that concrete instances evaluate in the kernel). -/
def listStarts : List Char → List Char → Bool
  | [], _ => true
  | _ :: _, [] => false
  | a :: as, b :: bs => a == b && listStarts as bs

/-- JavaScript `s.startsWith(pat)`. -/
def jsStarts (s pat : String) : Bool :=
  listStarts pat.data s.data

/-- JavaScript `s.endsWith(suf)`. -/
def jsEnds (s suf : String) : Bool :=
  listStarts suf.data.reverse s.data.reverse

/-- JavaScript `s.slice(n)` for a nonnegative `n` (drop the first `n`
characters). -/
def jsDrop (s : String) (n : Nat) : String :=
  ⟨s.data.drop n⟩

/-- JavaScript `s.replace(/^www\./, "")`: strips one leading `www.`. -/
def stripWww (s : String) : String :=
  if jsStarts s "www." then jsDrop s 4 else s

/-- Strict lexicographic (code-unit) comparison of character lists, as used by
the JavaScript `<` operator on strings. -/
def charsLt : List Char → List Char → Bool
  | _, [] => false
  | [], _ :: _ => true
  | a :: as, b :: bs => a < b || (a == b && charsLt as bs)

/-- JavaScript `a <= b` on strings: inclusive lexicographic comparison. -/
def jsLe (a b : String) : Bool :=
  a == b || charsLt a.data b.data

/-- JavaScript `n.toString().padStart(2, "0")`. -/
def pad2 (n : Nat) : String :=
  let s := toString n
  if s.length ≥ 2 then s else "0" ++ s

/-- The zero-padded `HH:MM` string the schedule evaluator builds from the
current hours and minutes (template literal in `isWithinSchedule`). -/
def hhmm (h m : Nat) : String :=
  pad2 h ++ ":" ++ pad2 m

/-- A blocklist entry (`BlockedSite` in `src/utils/types.ts` as used by
`storage.ts`). -/
structure BlockedSite where
  id : String
  domain : String
  category : Option String := none
  createdAt : Int
  blockCount : Int
  deriving Repr, DecidableEq

/-- One slot of the weekly schedule. -/
structure ScheduleSlot where
  id : String
  day : Int
  startTime : String
  endTime : String
  enabled : Bool
  deriving Repr, DecidableEq

/-- The weekly schedule record. -/
structure WeeklySchedule where
  enabled : Bool
  slots : List ScheduleSlot
  deriving Repr, DecidableEq

/-- The persisted stats record (`DEFAULT_STATS` shape in `storage.ts`). -/
structure Stats where
  totalFocusTime : Int
  totalBlocks : Int
  currentStreak : Int
  longestStreak : Int
  sessionsCompleted : Int
  deriving Repr, DecidableEq

/-- Embeds `extractDomain` from `src/background/index.ts`. The argument is the
outcome of `new URL(url)`: `some h` when the URL parses with hostname `h`,
`none` when the constructor throws (the `catch` branch returns `""`). -/
def extractDomain (host : Option String) : String :=
  match host with
  | some h => stripWww (jsToLower h)
  | none => ""

/-- Embeds `domainMatchesPattern` from `src/background/index.ts`. -/
def domainMatchesPattern (domain pattern : String) : Bool :=
  let normalizedPattern := stripWww (jsToLower pattern)
  if jsStarts normalizedPattern "*." then
    let baseDomain := jsDrop normalizedPattern 2
    domain == baseDomain || jsEnds domain ("." ++ baseDomain)
  else
    domain == normalizedPattern || jsEnds domain ("." ++ normalizedPattern)

/-- Embeds `isWithinSchedule` from `storage.ts`; the `new Date()` reads inside
the source become the explicit arguments `currentDay` (`now.getDay()`) and
`currentTime` (the zero-padded `HH:MM` template literal). -/
def isWithinSchedule (schedule : WeeklySchedule) (currentDay : Int)
    (currentTime : String) : Bool :=
  if !schedule.enabled || schedule.slots.isEmpty then
    true
  else
    schedule.slots.any fun slot =>
      if !slot.enabled || slot.day != currentDay then false
      else jsLe slot.startTime currentTime && jsLe currentTime slot.endTime

/-- Embeds `isUrlBlocked` from `src/background/index.ts` (verdict only: the
fire-and-forget cleanup of an expired break entry does not affect the returned
decision). `host` is the URL parse outcome as in `extractDomain`; the guard
against the extension's own `chrome-extension://` pages is platform glue with
no bearing on persisted state and is outside the navigation-URL domain modelled
here. `temporaryBreaks` is the persisted domain-to-expiry map, looked up by
first binding. `true` means Deny, `false` means Allow. -/
def isUrlBlocked (host : Option String) (settingsEnabled : Bool)
    (schedule : WeeklySchedule) (currentDay : Int) (currentTime : String)
    (temporaryBreaks : List (String × Int)) (now : Int)
    (blockedSites : List BlockedSite) : Bool :=
  let domain := extractDomain host
  if domain == "" then false
  else if !settingsEnabled then false
  else if schedule.enabled && !isWithinSchedule schedule currentDay currentTime then false
  else
    match temporaryBreaks.lookup domain with
    | some breakUntil =>
      if breakUntil ≠ 0 ∧ now < breakUntil then false
      else blockedSites.any fun site => domainMatchesPattern domain site.domain
    | none => blockedSites.any fun site => domainMatchesPattern domain site.domain

/-- The first-match loop of `incrementBlockCount`: walks the blocklist, bumps
`blockCount` of the first entry whose pattern matches, bumps `totalBlocks`
alongside it, and stops (the `break` in the source). -/
def incrementLoop (domain : String) (stats : Stats) :
    List BlockedSite → List BlockedSite × Stats
  | [] => ([], stats)
  | site :: rest =>
    if domainMatchesPattern domain site.domain then
      ({ site with blockCount := site.blockCount + 1 } :: rest,
       { stats with totalBlocks := stats.totalBlocks + 1 })
    else
      let r := incrementLoop domain stats rest
      (site :: r.1, r.2)

/-- Embeds `incrementBlockCount` from `src/background/index.ts`: returns the
updated blocklist and stats record. -/
def incrementBlockCount (host : Option String) (blockedSites : List BlockedSite)
    (stats : Stats) : List BlockedSite × Stats :=
  incrementLoop (extractDomain host) stats blockedSites

/-- The two session kinds of `FocusSession.type` (`'focus' | 'break'`);
`brk` embeds the string `'break'`. -/
inductive SessionType
  | focus
  | brk
  deriving Repr, DecidableEq

/-- A focus/break session (`FocusSession` in `src/utils/types.ts` as used by
`timer.ts`). -/
structure FocusSession where
  id : String
  startTime : Int
  endTime : Option Int := none
  duration : Int
  completed : Bool
  type : SessionType
  deriving Repr, DecidableEq

/-- The record written under `pausedSession` by `pauseSession`. -/
structure PausedSession where
  pausedAt : Int
  remainingSeconds : Int
  deriving Repr, DecidableEq

/-- The Pomodoro controller state (`PomodoroState` in `timer.ts`). -/
structure PomodoroState where
  enabled : Bool
  workDuration : Int
  breakDuration : Int
  longBreakDuration : Int
  sessionsUntilLongBreak : Int
  currentCycle : Int
  isOnBreak : Bool
  totalCyclesCompleted : Int
  deriving Repr, DecidableEq

/-- Initial Pomodoro state (`DEFAULT_POMODORO_STATE` in `timer.ts`). -/
def DEFAULT_POMODORO_STATE : PomodoroState :=
  { enabled := false, workDuration := 25, breakDuration := 5
    longBreakDuration := 15, sessionsUntilLongBreak := 4
    currentCycle := 1, isOnBreak := false, totalCyclesCompleted := 0 }

/-- Initial stats record (`DEFAULT_STATS` in `storage.ts`). -/
def DEFAULT_STATS : Stats :=
  { totalFocusTime := 0, totalBlocks := 0, currentStreak := 0
    longestStreak := 0, sessionsCompleted := 0 }

/-- The persisted store as seen by the timer operations: the
`chrome.storage.local` keys the timer reads and writes, plus the single
`flowblock-session-end` alarm (`some d` = pending with delay `d` seconds,
`none` = cleared). -/
structure St where
  currentSession : Option FocusSession
  pausedSession : Option PausedSession
  stats : Stats
  focusSessions : List FocusSession
  pomodoroState : PomodoroState
  alarm : Option Int
  deriving Repr, DecidableEq

/-- Embeds `saveFocusSession` from `storage.ts`: replace the first history
entry with the same id, else append. -/
def saveFocusSession (session : FocusSession) :
    List FocusSession → List FocusSession
  | [] => [session]
  | s :: rest =>
    if s.id == session.id then session :: rest
    else s :: saveFocusSession session rest

/-- Embeds `startFocusSession` from `timer.ts`. `now` stands for `Date.now()`
and `newId` for the value of `generateId()`; returns the created session and
the written-back store. -/
def startFocusSession (now : Int) (newId : String) (durationMinutes : Int)
    (type : SessionType) (s : St) : FocusSession × St :=
  let s1 :=
    if s.currentSession.isSome then
      { s with currentSession := none, pausedSession := none, alarm := none }
    else s
  let session : FocusSession :=
    { id := newId, startTime := now, duration := durationMinutes
      completed := false, type := type }
  (session,
   { s1 with
     alarm := some (durationMinutes * 60)
     currentSession := some session
     focusSessions := saveFocusSession session s1.focusSessions })

/-- Embeds `endFocusSession` from `timer.ts`; the thrown
`Error('Session not found or not active')` becomes the `Except.error` case. -/
def endFocusSession (now : Int) (sessionId : String) (completed : Bool)
    (s : St) : Except String St :=
  match s.currentSession with
  | none => .error "Session not found or not active"
  | some session =>
    if session.id ≠ sessionId then .error "Session not found or not active"
    else
      let endTime := now
      let actualDurationMinutes := jsRoundDiv (endTime - session.startTime) 60000
      let updatedSession :=
        { session with endTime := some endTime, completed := completed }
      let s1 :=
        { s with
          focusSessions := saveFocusSession updatedSession s.focusSessions
          alarm := none, currentSession := none, pausedSession := none }
      if completed then
        let stats := s1.stats
        let today := toDateString now
        let lastSessionDate : Option Int :=
          if stats.sessionsCompleted > 0 then some (toDateString session.startTime)
          else none
        let newStreak :=
          if lastSessionDate = some today then stats.currentStreak
          else if lastSessionDate = some (toDateString (now - 86400000)) then
            stats.currentStreak + 1
          else 1
        .ok { s1 with stats :=
          { stats with
            totalFocusTime := stats.totalFocusTime + actualDurationMinutes
            sessionsCompleted := stats.sessionsCompleted + 1
            currentStreak := newStreak
            longestStreak := max stats.longestStreak newStreak } }
      else .ok s1

/-- Embeds `getTimeRemaining` from `timer.ts`. -/
def getTimeRemaining (now : Int) (s : St) : Int :=
  match s.currentSession with
  | none => 0
  | some session =>
    match s.pausedSession with
    | some paused => paused.remainingSeconds
    | none =>
      let elapsed := now - session.startTime
      let totalMs := session.duration * 60 * 1000
      let remainingMs := totalMs - elapsed
      max 0 (jsRoundDiv remainingMs 1000)

/-- Embeds `pauseSession` from `timer.ts`. -/
def pauseSession (now : Int) (s : St) : Except String St :=
  match s.currentSession with
  | none => .error "No active session to pause"
  | some _ =>
    let remainingSeconds := getTimeRemaining now s
    if remainingSeconds ≤ 0 then .error "Session has already ended"
    else
      .ok { s with
        alarm := none
        pausedSession := some { pausedAt := now, remainingSeconds := remainingSeconds } }

/-- Embeds `resumeSession` from `timer.ts`: reschedules the alarm for the
frozen remaining seconds and shifts `startTime` forward by the pause
duration. -/
def resumeSession (now : Int) (s : St) : Except String St :=
  match s.currentSession with
  | none => .error "No active session to resume"
  | some session =>
    match s.pausedSession with
    | none => .error "Session is not paused"
    | some paused =>
      let pauseDuration := now - paused.pausedAt
      let updatedSession :=
        { session with startTime := session.startTime + pauseDuration }
      .ok { s with
        alarm := some paused.remainingSeconds
        currentSession := some updatedSession
        pausedSession := none }

/-- Embeds `startPomodoroMode` from `timer.ts`: resets the Pomodoro state
(keeping `sessionsUntilLongBreak`) and starts the first work session. -/
def startPomodoroMode (now : Int) (newId : String)
    (workDuration breakDuration longBreakDuration : Int) (s : St) :
    (FocusSession × PomodoroState) × St :=
  let pomodoroState :=
    { s.pomodoroState with
      enabled := true, workDuration := workDuration
      breakDuration := breakDuration, longBreakDuration := longBreakDuration
      currentCycle := 1, isOnBreak := false, totalCyclesCompleted := 0 }
  let r := startFocusSession now newId workDuration SessionType.focus
    { s with pomodoroState := pomodoroState }
  ((r.1, pomodoroState), r.2)

/-- Embeds `handlePomodoroSessionEnd` from `timer.ts`: `none` in the first
component corresponds to the `null` return when Pomodoro is disabled; otherwise
the triple is `{ nextSession, pomodoroState, message }`. -/
def handlePomodoroSessionEnd (now : Int) (newId : String) (s : St) :
    Option (FocusSession × PomodoroState × String) × St :=
  let pomodoroState := s.pomodoroState
  if !pomodoroState.enabled then (none, s)
  else if pomodoroState.isOnBreak then
    let nextDuration := pomodoroState.workDuration
    let message :=
      "Break over! Starting work session " ++ toString pomodoroState.currentCycle
    let updatedState := { pomodoroState with isOnBreak := false }
    let r := startFocusSession now newId nextDuration SessionType.focus
      { s with pomodoroState := updatedState }
    (some (r.1, updatedState, message), r.2)
  else
    let cyclesCompleted := pomodoroState.totalCyclesCompleted + 1
    let isLongBreak := cyclesCompleted % pomodoroState.sessionsUntilLongBreak == 0
    let nextDuration :=
      if isLongBreak then pomodoroState.longBreakDuration
      else pomodoroState.breakDuration
    let message :=
      if isLongBreak then
        "Great work! You have completed " ++ toString cyclesCompleted ++
          " sessions. Enjoy a " ++ toString pomodoroState.longBreakDuration ++
          " minute break!"
      else
        "Session " ++ toString pomodoroState.currentCycle ++
          " complete! Take a " ++ toString pomodoroState.breakDuration ++
          " minute break."
    let updatedState :=
      { pomodoroState with
        isOnBreak := true
        currentCycle := pomodoroState.currentCycle + 1
        totalCyclesCompleted := cyclesCompleted }
    let r := startFocusSession now newId nextDuration SessionType.brk
      { s with pomodoroState := updatedState }
    (some (r.1, updatedState, message), r.2)

/-- Embeds the `getTimeRemaining` case of `handleMessage` in
`src/background/index.ts` (the UI command surface); note it reads only the
current session and the wall clock, never the paused record. -/
def handleGetTimeRemaining (now : Int) (s : St) : Int :=
  match s.currentSession with
  | none => 0
  | some session =>
    let elapsed := now - session.startTime
    let totalMs := session.duration * 60 * 1000
    let remainingMs := max 0 (totalMs - elapsed)
    jsRoundDiv remainingMs 1000

/-- The streak rule in the specification's own words: `lastDate == today`
leaves the streak unchanged, `lastDate == yesterday` (the day before `today`)
increments it, anything else (including no prior completed session) resets it
to 1. -/
def streakSpec (currentStreak : Int) (lastDate : Option Int) (today : Int) : Int :=
  if lastDate = some today then currentStreak
  else if lastDate = some (today - 1) then currentStreak + 1
  else 1

/-- The invariant that a paused-session record exists only while a current
session exists. -/
def PausedInv (s : St) : Prop :=
  s.pausedSession.isSome = true → s.currentSession.isSome = true

/-- A fresh idle store: the defaults `getStats`/`getPomodoroState` fall back
to, no sessions, no pending alarm. -/
def initialStore : St :=
  { currentSession := none, pausedSession := none, stats := DEFAULT_STATS
    focusSessions := [], pomodoroState := DEFAULT_POMODORO_STATE, alarm := none }

/-- A current break-type session nearing its nominal end, used to evaluate
`endFocusSession` on a completed break. -/
def breakSession : FocusSession :=
  { id := "b1", startTime := 0, duration := 5, completed := false
    type := SessionType.brk }

/-- Store whose current session is the break-type `breakSession`. -/
def breakStore : St :=
  { initialStore with currentSession := some breakSession }

/-- Streak scenario, store after starting the first focus session (day 0). -/
def c3Run1 : St :=
  (startFocusSession 1000 "a" 25 SessionType.focus initialStore).2

/-- Streak scenario, store after completing the first session on day 0. -/
def c3Done1 : St :=
  ((endFocusSession 2000 "a" true c3Run1).toOption).getD initialStore

/-- Streak scenario, store after starting the second focus session on day 0. -/
def c3Run2 : St :=
  (startFocusSession 5000 "b" 25 SessionType.focus c3Done1).2

/-- Streak scenario, store after completing the second session on day 1
(`now = 86401000`). -/
def c3Done2 : St :=
  ((endFocusSession 86401000 "b" true c3Run2).toOption).getD initialStore

/-- Streak scenario, store after starting the third focus session on day 1. -/
def c3Run3 : St :=
  (startFocusSession 86402000 "c" 25 SessionType.focus c3Done2).2

/-- Streak scenario, store after completing the third session on day 3
(`now = 259201000`), having skipped day 2. -/
def c3Done3 : St :=
  ((endFocusSession 259201000 "c" true c3Run3).toOption).getD initialStore

/-- A paused one-minute session: the wall clock is at `120000` (two minutes
past start) while the frozen pause record still holds 30 seconds. -/
def pausedStore : St :=
  { initialStore with
    currentSession := some
      { id := "a", startTime := 0, duration := 1, completed := false
        type := SessionType.focus }
    pausedSession := some { pausedAt := 30000, remainingSeconds := 30 } }

/-- Pomodoro scenario: the store after `startPomodoro(work=25, break=5,
long=15)` followed by `n` elapsed-session transitions (the default
`sessionsUntilLongBreak = 4` is kept by `startPomodoroMode`). -/
def pomAfter : Nat → St
  | 0 => (startPomodoroMode 0 "p" 25 5 15 initialStore).2
  | n + 1 => (handlePomodoroSessionEnd 0 "x" (pomAfter n)).2

/-- The `{ nextSession, pomodoroState, message }` result of the `(n+1)`-th
elapsed-session transition in the Pomodoro scenario. -/
def pomCall (n : Nat) : Option (FocusSession × PomodoroState × String) :=
  (handlePomodoroSessionEnd 0 "x" (pomAfter n)).1

lemma listStarts_iff (a b : List Char) : listStarts a b = true ↔ ∃ t, b = a ++ t := by
  induction a generalizing b with
  | nil => simp [listStarts]
  | cons x xs ih =>
    cases b with
    | nil => simp [listStarts]
    | cons y ys =>
      simp only [listStarts, Bool.and_eq_true, beq_iff_eq, ih, List.cons_append,
        List.cons.injEq]
      constructor
      · rintro ⟨rfl, t, rfl⟩
        exact ⟨t, rfl, rfl⟩
      · rintro ⟨t, rfl, rfl⟩
        exact ⟨rfl, t, rfl⟩

lemma jsEnds_iff (s suf : String) : jsEnds s suf = true ↔ ∃ u, s.data = u ++ suf.data := by
  unfold jsEnds
  rw [listStarts_iff]
  constructor
  · rintro ⟨t, ht⟩
    refine ⟨t.reverse, ?_⟩
    have h2 := congrArg List.reverse ht
    simpa using h2
  · rintro ⟨u, hu⟩
    exact ⟨u.reverse, by simp [hu]⟩

/-- C6: `matches(domain, pattern)` lower-cases and `www.`-strips the pattern;
a `*.`-led pattern with base `base` matches iff the domain equals `base` or
ends with `"." ++ base`, any other pattern matches iff the domain equals it or
ends with `"." ++ pattern`; in particular a pattern `*.x.com` matches exactly
`x.com` and domains ending in `.x.com`, and `x.com.evil.com` does not match
`x.com` because the suffix match requires the preceding dot. (Ends-with is
stated semantically: some list of characters followed by the suffix.) -/
theorem domainMatchesPattern_spec :
    (∀ d p : String,
      domainMatchesPattern d p = true ↔
        (if jsStarts (stripWww (jsToLower p)) "*." then
          d = jsDrop (stripWww (jsToLower p)) 2 ∨
            ∃ u, d.data = u ++ ("." ++ jsDrop (stripWww (jsToLower p)) 2).data
        else
          d = stripWww (jsToLower p) ∨
            ∃ u, d.data = u ++ ("." ++ stripWww (jsToLower p)).data)) ∧
    (∀ d : String,
      domainMatchesPattern d "*.x.com" = true ↔
        (d = "x.com" ∨ ∃ u, d.data = u ++ ".x.com".data)) ∧
    domainMatchesPattern "x.com.evil.com" "x.com" = false := by
  have hgen : ∀ d p : String,
      domainMatchesPattern d p = true ↔
        (if jsStarts (stripWww (jsToLower p)) "*." then
          d = jsDrop (stripWww (jsToLower p)) 2 ∨
            ∃ u, d.data = u ++ ("." ++ jsDrop (stripWww (jsToLower p)) 2).data
        else
          d = stripWww (jsToLower p) ∨
            ∃ u, d.data = u ++ ("." ++ stripWww (jsToLower p)).data) := by
    intro d p
    simp only [domainMatchesPattern]
    cases hc : jsStarts (stripWww (jsToLower p)) "*." with
    | false => simp [hc, Bool.or_eq_true, beq_iff_eq, jsEnds_iff]
    | true => simp [hc, Bool.or_eq_true, beq_iff_eq, jsEnds_iff]
  refine ⟨hgen, fun d => ?_, by decide⟩
  have h := hgen d "*.x.com"
  rw [show stripWww (jsToLower "*.x.com") = "*.x.com" from by decide] at h
  rw [show ("." ++ jsDrop "*.x.com" 2 : String) = ".x.com" from by decide] at h
  rw [show jsDrop "*.x.com" 2 = "x.com" from by decide] at h
  simpa [show jsStarts "*.x.com" "*." = true from by decide] using h

/-- C7: the schedule evaluator returns `true` whenever the schedule is
disabled or has no slots; otherwise it returns `true` exactly when some
enabled slot covers the current weekday with `startTime ≤ HH:MM ≤ endTime`
under the inclusive lexicographic comparison `jsLe` of zero-padded `HH:MM`
strings, and `false` when no slot matches. -/
theorem isWithinSchedule_spec :
    (∀ (schedule : WeeklySchedule) (day : Int) (h m : Nat),
       schedule.enabled = false ∨ schedule.slots = [] →
       isWithinSchedule schedule day (hhmm h m) = true) ∧
    (∀ (schedule : WeeklySchedule) (day : Int) (h m : Nat),
       schedule.enabled = true → schedule.slots ≠ [] →
       (isWithinSchedule schedule day (hhmm h m) = true ↔
         ∃ slot ∈ schedule.slots, slot.enabled = true ∧ slot.day = day ∧
           jsLe slot.startTime (hhmm h m) = true ∧
           jsLe (hhmm h m) slot.endTime = true)) := by
  constructor
  · rintro sched day h m (he | hs)
    · simp [isWithinSchedule, he]
    · simp [isWithinSchedule, hs]
  · intro sched day h m he hs
    have hne : sched.slots.isEmpty = false := by
      cases hsl : sched.slots with
      | nil => exact absurd hsl hs
      | cons a l => simp
    simp only [isWithinSchedule, he, hne, Bool.not_true, Bool.or_self,
      Bool.false_eq_true, if_false, List.any_eq_true]
    apply exists_congr
    intro slot
    apply and_congr_right
    intro _
    cases h1 : slot.enabled with
    | false => simp [h1]
    | true =>
      by_cases h2 : slot.day = day
      · simp [h1, h2, Bool.and_eq_true]
      · simp [h1, h2, bne_iff_ne]

/-- Witness for C7 at a concrete schedule, weekday and time: one enabled slot
for day 1 between 09:00 and 17:00, queried at 09:05 on day 1. -/
theorem isWithinSchedule_spec_witness :
    ({ enabled := true
       slots := [{ id := "s1", day := 1, startTime := "09:00"
                   endTime := "17:00", enabled := true }] } : WeeklySchedule).enabled
        = true ∧
    isWithinSchedule
        { enabled := true
          slots := [{ id := "s1", day := 1, startTime := "09:00"
                      endTime := "17:00", enabled := true }] } 1 (hhmm 9 5) = true :=
  ⟨rfl, by
    have h := isWithinSchedule_spec.2
      { enabled := true
        slots := [{ id := "s1", day := 1, startTime := "09:00"
                    endTime := "17:00", enabled := true }] } 1 9 5 rfl (by simp)
    exact h.2 ⟨{ id := "s1", day := 1, startTime := "09:00"
                 endTime := "17:00", enabled := true },
      by simp, rfl, rfl, by decide, by decide⟩⟩

lemma isWithinSchedule_of_disabled (schedule : WeeklySchedule) (day : Int)
    (cur : String) (h : schedule.enabled = false) :
    isWithinSchedule schedule day cur = true := by
  simp [isWithinSchedule, h]

/-- C1: the blocking decision denies a navigation exactly when the URL yields a
nonempty normalized domain, global blocking is enabled, the schedule evaluator
reports active, no unexpired temporary break covers the domain, and some
blocklist pattern matches the domain; failing any of these checks (which the
source tests in exactly this order, each returning Allow immediately) yields
Allow. `0 ≤ now` reflects that `Date.now()` is nonnegative. -/
theorem isUrlBlocked_deny_iff
    (host : Option String) (settingsEnabled : Bool) (schedule : WeeklySchedule)
    (currentDay : Int) (currentTime : String)
    (temporaryBreaks : List (String × Int)) (now : Int)
    (blockedSites : List BlockedSite) (hnow : 0 ≤ now) :
    isUrlBlocked host settingsEnabled schedule currentDay currentTime
        temporaryBreaks now blockedSites = true ↔
      (extractDomain host ≠ "" ∧ settingsEnabled = true ∧
       isWithinSchedule schedule currentDay currentTime = true ∧
       (∀ b, temporaryBreaks.lookup (extractDomain host) = some b → ¬ now < b) ∧
       ∃ site ∈ blockedSites,
         domainMatchesPattern (extractDomain host) site.domain = true) := by
  simp only [isUrlBlocked]
  by_cases hd : extractDomain host = ""
  · simp [hd]
  · cases he : settingsEnabled with
    | false => simp [beq_iff_eq, hd, he]
    | true =>
      by_cases hw : isWithinSchedule schedule currentDay currentTime = true
      · cases hl : temporaryBreaks.lookup (extractDomain host) with
        | none =>
          simp [beq_iff_eq, hd, he, hw, hl, List.any_eq_true]
        | some b =>
          by_cases hb : b ≠ 0 ∧ now < b
          · simp only [beq_iff_eq, hd, he, hw, hl]
            simp [hb, hd]
          · have hnb : ¬ now < b := by
              intro hlt
              exact hb ⟨by omega, hlt⟩
            simp only [beq_iff_eq, hd, he, hw, hl]
            simp [hb, hd, hw, List.any_eq_true]
            intro b' hb'
            omega
      · have hse : schedule.enabled = true := by
          by_contra hf
          exact hw (isWithinSchedule_of_disabled _ _ _ (by simpa using hf))
        simp [beq_iff_eq, hd, he, hw, hse]

/-- Witness for C1 at scenario A's inputs: blocklist entry `facebook.com`,
blocking enabled, no schedule, no break, URL domain `m.facebook.com`. -/
theorem isUrlBlocked_deny_iff_witness :
    (0 : Int) ≤ 1000 ∧
    (isUrlBlocked (some "m.facebook.com") true { enabled := false, slots := [] }
        1 "09:05" [] 1000
        [{ id := "1", domain := "facebook.com", createdAt := 0, blockCount := 0 }]
        = true ↔
      (extractDomain (some "m.facebook.com") ≠ "" ∧ true = true ∧
       isWithinSchedule { enabled := false, slots := [] } 1 "09:05" = true ∧
       (∀ b, ([] : List (String × Int)).lookup
           (extractDomain (some "m.facebook.com")) = some b → ¬ (1000 : Int) < b) ∧
       ∃ site ∈ [({ id := "1", domain := "facebook.com", createdAt := 0
                    blockCount := 0 } : BlockedSite)],
         domainMatchesPattern (extractDomain (some "m.facebook.com")) site.domain
           = true)) :=
  ⟨by norm_num,
   isUrlBlocked_deny_iff (some "m.facebook.com") true
     { enabled := false, slots := [] } 1 "09:05" [] 1000
     [{ id := "1", domain := "facebook.com", createdAt := 0, blockCount := 0 }]
     (by norm_num)⟩

/-- C9: on a deny, the block recorder bumps the `blockCount` of exactly the
first blocklist entry whose pattern matches the domain by 1 and the global
`totalBlocks` by 1, leaving every entry before it (which did not match), every
entry after it (even if it would also match), every other field of the matched
entry and every other stats field unchanged. -/
theorem incrementBlockCount_first_match
    (host : Option String) (pre : List BlockedSite) (site : BlockedSite)
    (post : List BlockedSite) (stats : Stats)
    (hpre : ∀ x ∈ pre, domainMatchesPattern (extractDomain host) x.domain = false)
    (hsite : domainMatchesPattern (extractDomain host) site.domain = true) :
    incrementBlockCount host (pre ++ site :: post) stats =
      (pre ++ { site with blockCount := site.blockCount + 1 } :: post,
       { stats with totalBlocks := stats.totalBlocks + 1 }) := by
  unfold incrementBlockCount
  induction pre with
  | nil => simp [incrementLoop, hsite]
  | cons x xs ih =>
    have hx := hpre x (by simp)
    have ih2 := ih fun y hy => hpre y (by simp [hy])
    simp [incrementLoop, hx, ih2]

/-- Witness for C9 at a blocklist where both entries match `m.facebook.com`:
only the first entry's count moves. -/
theorem incrementBlockCount_first_match_witness :
    (∀ x ∈ ([] : List BlockedSite),
       domainMatchesPattern (extractDomain (some "m.facebook.com")) x.domain
         = false) ∧
    domainMatchesPattern (extractDomain (some "m.facebook.com"))
        ({ id := "1", domain := "facebook.com", createdAt := 0
           blockCount := 3 } : BlockedSite).domain = true ∧
    incrementBlockCount (some "m.facebook.com")
        ([] ++ ({ id := "1", domain := "facebook.com", createdAt := 0
                  blockCount := 3 } : BlockedSite) ::
          [{ id := "2", domain := "*.facebook.com", createdAt := 5
             blockCount := 7 }]) DEFAULT_STATS =
      ([] ++ ({ ({ id := "1", domain := "facebook.com", createdAt := 0
                   blockCount := 3 } : BlockedSite) with
                blockCount := ({ id := "1", domain := "facebook.com"
                                 createdAt := 0
                                 blockCount := 3 } : BlockedSite).blockCount + 1 }) ::
        [{ id := "2", domain := "*.facebook.com", createdAt := 5
           blockCount := 7 }],
       { DEFAULT_STATS with totalBlocks := DEFAULT_STATS.totalBlocks + 1 }) :=
  ⟨by simp, by decide,
   incrementBlockCount_first_match (some "m.facebook.com") []
     { id := "1", domain := "facebook.com", createdAt := 0, blockCount := 3 }
     [{ id := "2", domain := "*.facebook.com", createdAt := 5, blockCount := 7 }]
     DEFAULT_STATS (by simp) (by decide)⟩

/-- C2 evaluated at its failing input: a current *break*-type session of
nominal 5 minutes is ended as completed after 24 wall-clock minutes; the code
nevertheless adds 24 to `totalFocusTime`, bumps `sessionsCompleted` and
touches the streak, while the specification says break-type sessions never
affect stats. -/
theorem endFocusSession_break_affects_stats :
    breakStore.currentSession = some breakSession ∧
    breakSession.type = SessionType.brk ∧
    breakStore.stats = DEFAULT_STATS ∧
    DEFAULT_STATS.totalFocusTime = 0 ∧
    DEFAULT_STATS.sessionsCompleted = 0 ∧
    DEFAULT_STATS.currentStreak = 0 ∧
    (endFocusSession 1440000 "b1" true breakStore).map
        (fun s => (s.stats.totalFocusTime, s.stats.sessionsCompleted,
                   s.stats.currentStreak)) = .ok (24, 1, 1) :=
  ⟨rfl, rfl, rfl, rfl, rfl, rfl, rfl⟩

lemma toDateString_sub_day (t : Int) :
    toDateString (t - 86400000) = toDateString t - 1 := by
  unfold toDateString
  rw [Int.fdiv_eq_ediv _ (by norm_num), Int.fdiv_eq_ediv _ (by norm_num)]
  omega

/-- C3: ending the current session as completed updates the streak exactly by
the specified rule — `lastDate` is the calendar day of the completing
session's `startTime` when a prior completed session exists (`sessionsCompleted
> 0`) and undefined otherwise; the streak is kept on `lastDate = today`,
incremented on `lastDate = today - 1`, reset to 1 otherwise, and
`longestStreak` becomes the max of itself and the new streak. The second part
runs the spec's scenario D: completions on day 0, day 1 (streak 2) and, after
skipping a day, day 3 (streak back to 1, longest still 2). -/
theorem streak_update_rule :
    (∀ (s : St) (now : Int) (session : FocusSession),
       s.currentSession = some session →
       ∃ s2, endFocusSession now session.id true s = .ok s2 ∧
         s2.stats.currentStreak =
           streakSpec s.stats.currentStreak
             (if s.stats.sessionsCompleted > 0
              then some (toDateString session.startTime) else none)
             (toDateString now) ∧
         s2.stats.longestStreak =
           max s.stats.longestStreak s2.stats.currentStreak) ∧
    ((endFocusSession 2000 "a" true c3Run1).isOk = true ∧
     c3Done1.stats.currentStreak = 1 ∧
     (endFocusSession 86401000 "b" true c3Run2).isOk = true ∧
     c3Done2.stats.currentStreak = 2 ∧
     c3Done2.stats.longestStreak = 2 ∧
     (endFocusSession 259201000 "c" true c3Run3).isOk = true ∧
     c3Done3.stats.currentStreak = 1 ∧
     c3Done3.stats.longestStreak = 2) := by
  constructor
  · intro s now session hcur
    simp only [endFocusSession, hcur]
    rw [if_neg (fun h => h rfl)]
    simp only [if_true]
    refine ⟨_, rfl, ?_, rfl⟩
    simp only [streakSpec, toDateString_sub_day]
  · exact ⟨by decide, by decide, by decide, by decide, by decide, by decide,
      by decide, by decide⟩

/-- Witness for C3's streak rule applied to the scenario's second completion:
the session started on day 0 is completed on day 1. -/
theorem streak_update_rule_witness :
    c3Run2.currentSession = some
      { id := "b", startTime := 5000, duration := 25, completed := false
        type := SessionType.focus } ∧
    ∃ s2, endFocusSession 86401000 "b" true c3Run2 = .ok s2 ∧
      s2.stats.currentStreak =
        streakSpec c3Run2.stats.currentStreak
          (if c3Run2.stats.sessionsCompleted > 0
           then some (toDateString 5000) else none)
          (toDateString 86401000) ∧
      s2.stats.longestStreak =
        max c3Run2.stats.longestStreak s2.stats.currentStreak :=
  ⟨rfl, streak_update_rule.1 c3Run2 86401000 _ rfl⟩

/-- C4 counterexample: with a paused record freezing 30 seconds, the timer
utility returns the frozen 30, but the UI command surface's `getTimeRemaining`
handler recomputes from the wall clock and returns 0 — it does not return the
frozen `remainingSeconds`, contradicting the claim for the command surface. -/
theorem remaining_command_ignores_pause :
    pausedStore.pausedSession = some { pausedAt := 30000, remainingSeconds := 30 } ∧
    getTimeRemaining 120000 pausedStore = 30 ∧
    handleGetTimeRemaining 120000 pausedStore = 0 ∧
    ¬ handleGetTimeRemaining 120000 pausedStore = 30 := by
  exact ⟨rfl, rfl, rfl, by decide⟩

lemma jsRoundDiv_max (x : Int) :
    max 0 (jsRoundDiv x 1000) = jsRoundDiv (max 0 x) 1000 := by
  unfold jsRoundDiv
  rw [Int.fdiv_eq_ediv _ (by norm_num), Int.fdiv_eq_ediv _ (by norm_num)]
  omega

/-- C4 amended: with a current session, the timer utility's `getTimeRemaining`
returns the frozen `remainingSeconds` whenever a paused record exists and
otherwise `max(0, duration*60*1000 - (now - startTime))` rounded to the
nearest second; the UI command's `getTimeRemaining` always returns that
wall-clock formula, ignoring any paused record. -/
theorem remaining_semantics :
    ∀ (s : St) (now : Int) (session : FocusSession),
      s.currentSession = some session →
      ((∀ paused, s.pausedSession = some paused →
          getTimeRemaining now s = paused.remainingSeconds) ∧
       (s.pausedSession = none →
          getTimeRemaining now s =
            max 0 (jsRoundDiv (session.duration * 60 * 1000
              - (now - session.startTime)) 1000)) ∧
       handleGetTimeRemaining now s =
         max 0 (jsRoundDiv (session.duration * 60 * 1000
           - (now - session.startTime)) 1000)) := by
  intro s now session hcur
  refine ⟨?_, ?_, ?_⟩
  · intro paused hp
    simp [getTimeRemaining, hcur, hp]
  · intro hp
    simp [getTimeRemaining, hcur, hp]
  · simp only [handleGetTimeRemaining, hcur]
    exact (jsRoundDiv_max _).symm

/-- Witness for C4's amended statement at the concrete paused store. -/
theorem remaining_semantics_witness :
    pausedStore.currentSession = some
      { id := "a", startTime := 0, duration := 1, completed := false
        type := SessionType.focus } ∧
    ((∀ paused, pausedStore.pausedSession = some paused →
        getTimeRemaining 120000 pausedStore = paused.remainingSeconds) ∧
     (pausedStore.pausedSession = none →
        getTimeRemaining 120000 pausedStore =
          max 0 (jsRoundDiv ((1 : Int) * 60 * 1000 - (120000 - 0)) 1000)) ∧
     handleGetTimeRemaining 120000 pausedStore =
       max 0 (jsRoundDiv ((1 : Int) * 60 * 1000 - (120000 - 0)) 1000)) :=
  ⟨rfl, remaining_semantics pausedStore 120000 _ rfl⟩

lemma startFocusSession_pomodoroState (now : Int) (newId : String) (d : Int)
    (ty : SessionType) (s : St) :
    ((startFocusSession now newId d ty s).2).pomodoroState = s.pomodoroState := by
  unfold startFocusSession
  by_cases h : s.currentSession.isSome
  · simp [h]
  · simp [h]

/-- C5: when Pomodoro is enabled and the ending session was a work session
(`isOnBreak = false`), the transition increments `totalCyclesCompleted`, starts
a break whose length is `longBreakDuration` exactly when the incremented count
is divisible by `sessionsUntilLongBreak` and `breakDuration` otherwise,
increments `currentCycle` and sets `isOnBreak`. The second part runs
scenario C: after `startPomodoro(25, 5, 15)` with the default
`sessionsUntilLongBreak = 4`, the elapsed calls alternate focus/break; the
first three focus completions (calls 1, 3, 5) start 5-minute breaks and the
4th focus completion (call 7) starts a 15-minute break, not a 5-minute one. -/
theorem pomodoro_focus_end :
    (∀ (s : St) (now : Int) (newId : String),
       s.pomodoroState.enabled = true → s.pomodoroState.isOnBreak = false →
       ∃ next st2 msg,
         (handlePomodoroSessionEnd now newId s).1 = some (next, st2, msg) ∧
         st2.totalCyclesCompleted = s.pomodoroState.totalCyclesCompleted + 1 ∧
         next.type = SessionType.brk ∧
         next.duration =
           (if (s.pomodoroState.totalCyclesCompleted + 1)
                % s.pomodoroState.sessionsUntilLongBreak = 0
            then s.pomodoroState.longBreakDuration
            else s.pomodoroState.breakDuration) ∧
         st2.currentCycle = s.pomodoroState.currentCycle + 1 ∧
         st2.isOnBreak = true ∧
         (handlePomodoroSessionEnd now newId s).2.pomodoroState = st2 ∧
         (handlePomodoroSessionEnd now newId s).2.currentSession = some next) ∧
    ((pomCall 0).map (fun t => (t.1.duration, t.1.type)) = some (5, SessionType.brk) ∧
     (pomCall 2).map (fun t => (t.1.duration, t.1.type)) = some (5, SessionType.brk) ∧
     (pomCall 4).map (fun t => (t.1.duration, t.1.type)) = some (5, SessionType.brk) ∧
     (pomCall 6).map (fun t => (t.1.duration, t.1.type)) = some (15, SessionType.brk) ∧
     (pomAfter 6).pomodoroState.totalCyclesCompleted = 3 ∧
     (15 : Int) ≠ 5) := by
  constructor
  · intro s now newId he hob
    simp only [handlePomodoroSessionEnd, he, hob, Bool.not_true,
      Bool.false_eq_true, if_false]
    refine ⟨_, _, _, rfl, rfl, rfl, ?_, rfl, rfl,
      startFocusSession_pomodoroState _ _ _ _ _, rfl⟩
    by_cases hmod :
        (s.pomodoroState.totalCyclesCompleted + 1)
          % s.pomodoroState.sessionsUntilLongBreak = 0
    · simp [hmod, startFocusSession]
    · simp [hmod, startFocusSession]
  · exact ⟨by decide, by decide, by decide, by decide, by decide, by decide⟩

/-- Witness for C5's transition rule at the scenario store reached after six
elapsed calls (Pomodoro enabled, not on break, three cycles completed). -/
theorem pomodoro_focus_end_witness :
    (pomAfter 6).pomodoroState.enabled = true ∧
    (pomAfter 6).pomodoroState.isOnBreak = false ∧
    ∃ next st2 msg,
      (handlePomodoroSessionEnd 0 "w" (pomAfter 6)).1 = some (next, st2, msg) ∧
      st2.totalCyclesCompleted = (pomAfter 6).pomodoroState.totalCyclesCompleted + 1 ∧
      next.type = SessionType.brk ∧
      next.duration =
        (if ((pomAfter 6).pomodoroState.totalCyclesCompleted + 1)
             % (pomAfter 6).pomodoroState.sessionsUntilLongBreak = 0
         then (pomAfter 6).pomodoroState.longBreakDuration
         else (pomAfter 6).pomodoroState.breakDuration) ∧
      st2.currentCycle = (pomAfter 6).pomodoroState.currentCycle + 1 ∧
      st2.isOnBreak = true ∧
      (handlePomodoroSessionEnd 0 "w" (pomAfter 6)).2.pomodoroState = st2 ∧
      (handlePomodoroSessionEnd 0 "w" (pomAfter 6)).2.currentSession = some next :=
  ⟨by decide, by decide,
   pomodoro_focus_end.1 (pomAfter 6) 0 "w" (by decide) (by decide)⟩

/-- C8: starting a focus session and ending it as completed with the returned
id leaves a store on which the remaining-time query returns 0, and a second
end with the same id fails with the session-not-found error; in general,
ending fails with that error whenever there is no current session or its id
differs — and in the source the throw precedes every write, which the
`Except`-based embedding reflects by returning no successor state on error. -/
lemma endFocusSession_ok (s : St) (now : Int) (session : FocusSession)
    (hcur : s.currentSession = some session) :
    ∃ s2, endFocusSession now session.id true s = .ok s2 ∧
      s2.currentSession = none ∧ s2.pausedSession = none := by
  simp only [endFocusSession, hcur]
  rw [if_neg (fun h => h rfl)]
  simp only [if_true]
  exact ⟨_, rfl, rfl, rfl⟩

theorem session_round_trip :
    (∀ (s : St) (now1 now2 now3 now4 : Int) (newId : String) (d : Int),
       ∃ s2 : St,
         (startFocusSession now1 newId d SessionType.focus s).1.id = newId ∧
         endFocusSession now2 newId true
             (startFocusSession now1 newId d SessionType.focus s).2 = .ok s2 ∧
         getTimeRemaining now3 s2 = 0 ∧
         endFocusSession now4 newId true s2 =
           .error "Session not found or not active") ∧
    (∀ (s : St) (now : Int) (sessionId : String) (completed : Bool),
       (∀ sess, s.currentSession = some sess → sess.id ≠ sessionId) →
       endFocusSession now sessionId completed s =
         .error "Session not found or not active") := by
  constructor
  · intro s now1 now2 now3 now4 newId d
    obtain ⟨s2, hend, hcur2, _⟩ :=
      endFocusSession_ok (startFocusSession now1 newId d SessionType.focus s).2
        now2 _ rfl
    refine ⟨s2, rfl, hend, ?_, ?_⟩
    · simp [getTimeRemaining, hcur2]
    · simp [endFocusSession, hcur2]
  · intro s now sessionId completed hne
    cases hcur : s.currentSession with
    | none => simp [endFocusSession, hcur]
    | some sess => simp [endFocusSession, hcur, hne sess hcur]

/-- Witness for C8's failure case: ending on the fresh idle store fails with
the session-not-found error. -/
theorem session_round_trip_witness :
    (∀ sess, initialStore.currentSession = some sess → sess.id ≠ "zzz") ∧
    endFocusSession 50 "zzz" true initialStore =
      .error "Session not found or not active" :=
  ⟨fun sess h => by simp [initialStore] at h,
   session_round_trip.2 initialStore 50 "zzz" true
     (fun sess h => by simp [initialStore] at h)⟩

/-- C10: assuming a paused record exists only while a current session exists,
every session operation preserves that invariant — start leaves no paused
record at all, a successful end clears both records together, a successful
pause happens only with a current session present, and a successful resume
clears the paused record. -/
theorem session_ops_paused_inv :
    ∀ (s : St), PausedInv s →
      (∀ (now : Int) (newId : String) (d : Int) (ty : SessionType),
         (startFocusSession now newId d ty s).2.pausedSession = none ∧
         PausedInv (startFocusSession now newId d ty s).2) ∧
      (∀ (now : Int) (sessionId : String) (completed : Bool) (s2 : St),
         endFocusSession now sessionId completed s = .ok s2 →
         s2.currentSession = none ∧ s2.pausedSession = none) ∧
      (∀ (now : Int) (s2 : St), pauseSession now s = .ok s2 →
         s2.currentSession.isSome = true ∧ PausedInv s2) ∧
      (∀ (now : Int) (s2 : St), resumeSession now s = .ok s2 →
         s2.pausedSession = none ∧ PausedInv s2) := by
  intro s hinv
  refine ⟨?_, ?_, ?_, ?_⟩
  · intro now newId d ty
    by_cases hc : s.currentSession.isSome
    · constructor
      · simp [startFocusSession, hc]
      · intro _
        simp [startFocusSession, hc]
    · have hp : s.pausedSession = none := by
        cases hps : s.pausedSession with
        | none => rfl
        | some p => exact absurd (hinv (by rw [hps]; rfl)) hc
      constructor
      · simp [startFocusSession, hc, hp]
      · intro _
        simp [startFocusSession, hc]
  · intro now sessionId completed s2 heq
    cases hcur : s.currentSession with
    | none =>
      simp only [endFocusSession, hcur] at heq
      simp at heq
    | some sess =>
      simp only [endFocusSession, hcur] at heq
      by_cases hid : sess.id = sessionId
      · rw [if_neg (fun h => h hid)] at heq
        cases completed with
        | true =>
          simp only [if_true, Except.ok.injEq] at heq
          subst heq
          exact ⟨rfl, rfl⟩
        | false =>
          simp only [Bool.false_eq_true, if_false, Except.ok.injEq] at heq
          subst heq
          exact ⟨rfl, rfl⟩
      · rw [if_pos hid] at heq
        simp at heq
  · intro now s2 heq
    cases hcur : s.currentSession with
    | none =>
      simp only [pauseSession, hcur] at heq
      simp at heq
    | some sess =>
      simp only [pauseSession, hcur] at heq
      by_cases hrem : getTimeRemaining now s ≤ 0
      · rw [if_pos hrem] at heq
        simp at heq
      · rw [if_neg hrem] at heq
        simp only [Except.ok.injEq] at heq
        subst heq
        exact ⟨by simp [hcur], fun _ => by simp [hcur]⟩
  · intro now s2 heq
    cases hcur : s.currentSession with
    | none =>
      simp only [resumeSession, hcur] at heq
      simp at heq
    | some sess =>
      cases hps : s.pausedSession with
      | none =>
        simp only [resumeSession, hcur, hps] at heq
        simp at heq
      | some paused =>
        simp only [resumeSession, hcur, hps, Except.ok.injEq] at heq
        subst heq
        exact ⟨rfl, by intro h; simp at h⟩

/-- Witness for C10 at the fresh idle store (which satisfies the invariant)
and a concrete start operation. -/
theorem session_ops_paused_inv_witness :
    PausedInv initialStore ∧
    ((startFocusSession 0 "w" 25 SessionType.focus initialStore).2.pausedSession
        = none ∧
     PausedInv (startFocusSession 0 "w" 25 SessionType.focus initialStore).2) :=
  ⟨fun h => by simp [initialStore] at h,
   (session_ops_paused_inv initialStore
     (fun h => by simp [initialStore] at h)).1 0 "w" 25 SessionType.focus⟩

end FlowBlock
